import Mathlib

/-!
Shallow embedding of `src/sqlize.js`: a CSV-to-SQL generator that infers a
per-column schema from a bounded sample of rows and then emits DROP/CREATE
and batched INSERT statements, with optional lookup-table and foreign-key
surrogate substitution.

Modeling conventions, used throughout:
* JS objects are insertion-ordered association lists (`alistGet`/`alistSet`);
  assigning to an existing key updates it in place, a new key is appended,
  matching JS property order for non-numeric string keys.
* CSV rows are association lists of string fields, in header order, as
  csv-parser delivers them.
* `Number(v)` on a string matched by the numeric pattern `^-?\d+(\.\d+)?$`
  is modeled with exact (unbounded) arithmetic on the digit string;
  `Number.isInteger` then holds exactly when the fractional digits are all
  zero or absent.
* moment's strict format matching is modeled token by token: each numeric
  token consumes exactly its digit count (1-2 digits for the single-letter
  tokens, greedily), literal separators must match, no input may remain,
  and the parsed fields must pass moment's overflow checks.
-/

namespace Sqlize

/-- A parsed CSV row as csv-parser delivers it: an insertion-ordered list of
(header, field) pairs, every field a string. -/
abbrev Row := List (String × String)

/-- Property read `obj[k]` on a JS object modeled as an insertion-ordered
association list. -/
def alistGet {α : Type} : List (String × α) → String → Option α
  | [], _ => none
  | kv :: rest, k => if kv.1 = k then some kv.2 else alistGet rest k

/-- Property write `obj[k] = v`: updates the first binding in place, or
appends a new one, as JS insertion order does. -/
def alistSet {α : Type} : List (String × α) → String → α → List (String × α)
  | [], k, v => [(k, v)]
  | kv :: rest, k, v => if kv.1 = k then (k, v) :: rest else kv :: alistSet rest k v

/-- String membership in a list (the object-as-set test `forceTextColumns[key]`
and `Array.prototype.includes`). -/
def strMem (k : String) : List String → Bool
  | [] => false
  | a :: rest => if a = k then true else strMem k rest

/-- Models `String.prototype.toLowerCase()`, modeled character by character over the
ASCII range the source's column names use. -/
def jsToLower (s : String) : String :=
  ⟨s.data.map Char.toLower⟩

/-- A whitespace character as `String.prototype.trim()` sees it (the common
ASCII whitespace; the exotic Unicode space classes are not modeled). -/
def isJsSpace (c : Char) : Bool :=
  decide (c = ' ') || decide (c = '\t') || decide (c = '\n') || decide (c = '\r')

/-- Models `String.prototype.trim()`: strip whitespace from both ends. -/
def jsTrim (s : String) : String :=
  ⟨((s.data.dropWhile isJsSpace).reverse.dropWhile isJsSpace).reverse⟩

/-- Worker for `jsSplitComma`: split at every comma, keeping empty pieces. -/
def splitCommaAux : List Char → List Char → List String
  | [], acc => [⟨acc.reverse⟩]
  | c :: rest, acc =>
    if c = ',' then ⟨acc.reverse⟩ :: splitCommaAux rest [] else splitCommaAux rest (c :: acc)

/-- Models `String.prototype.split(",")`. -/
def jsSplitComma (s : String) : List String :=
  splitCommaAux s.data []

/-- The `dataTypePriority` array of `isMoreSpecificDataType` (sqlize.js
lines 286-294), least specific first. -/
def dataTypePriority : List String :=
  ["null", "int", "decimal(15, 5)", "date", "datetime", "varchar(100)", "varchar(255)"]

/-- JS `Array.prototype.indexOf`: index of the first occurrence, `-1` when
absent. -/
def jsIndexOf : List String → String → Int
  | [], _ => -1
  | t :: rest, s =>
    if t = s then 0
    else
      let r := jsIndexOf rest s
      if r = -1 then -1 else r + 1

/-- Source `isMoreSpecificDataType(currentType, newType)` (sqlize.js lines 284-298):
the new type wins exactly when its priority index is strictly larger. -/
def isMoreSpecificDataType (currentType newType : String) : Bool :=
  decide (jsIndexOf dataTypePriority newType > jsIndexOf dataTypePriority currentType)

/-- The reconciliation step performed inline in `analyzeRow` (sqlize.js
lines 230-235): keep the observed type only when it is strictly more
specific than the current one. -/
def reconcile (currentType observed : String) : String :=
  if isMoreSpecificDataType currentType observed then observed else currentType

/-- Digit-run value, most significant first. -/
def digitsToNat (ds : List Char) : Nat :=
  ds.foldl (fun a c => a * 10 + (c.toNat - 48)) 0

/-- Body of the numeric regex after the optional sign: `\d+(\.\d+)?`. -/
def numericBody (cs : List Char) : Bool :=
  let p := cs.span Char.isDigit
  !p.1.isEmpty &&
    (match p.2 with
     | [] => true
     | c :: fs => decide (c = '.') && !fs.isEmpty && fs.all Char.isDigit)

/-- The numeric test `/^-?\d+(\.\d+)?$/.test(value)` of `inferDataType`
(sqlize.js line 245). -/
def matchesNumericPattern (s : String) : Bool :=
  match s.data with
  | '-' :: rest => numericBody rest
  | cs => numericBody cs

/-- Integer and fractional digit runs of a value matched by the numeric
pattern (fractional run empty when the decimal point is absent). -/
def numericDigits (s : String) : List Char × List Char :=
  let cs := match s.data with
    | '-' :: rest => rest
    | cs => cs
  let p := cs.span Char.isDigit
  (p.1, match p.2 with
        | _ :: fs => fs
        | [] => [])

/-- Leading-minus test of the numeric literal. -/
def numericIsNeg (s : String) : Bool :=
  match s.data with
  | c :: _ => decide (c = '-')
  | [] => false

/-- Models `Number.isInteger(Number(value))` for a value matched by the numeric
pattern, under the exact-arithmetic model: all fractional digits zero or
absent. -/
def numericIsInteger (s : String) : Bool :=
  (numericDigits s).2.all (fun c => decide (c = '0'))

/-- Models `Number(value)` for an integral value matched by the numeric pattern,
under the exact-arithmetic model. -/
def numericIntValue (s : String) : Int :=
  let n : Int := digitsToNat (numericDigits s).1
  if numericIsNeg s then -n else n

/-- Date parts parsed out of a datetime format, before validity checking. -/
structure DateParts where
  year : Nat
  month : Nat
  day : Nat
  hour : Nat
  minute : Nat
  second : Nat
deriving DecidableEq, Repr

/-- Consume exactly two digits (moment's strict 2-digit tokens). -/
def take2 : List Char → Option (Nat × List Char)
  | a :: b :: rest =>
    if a.isDigit && b.isDigit then some (10 * (a.toNat - 48) + (b.toNat - 48), rest) else none
  | _ => none

/-- Consume exactly three digits (moment's `SSS` token). -/
def take3 : List Char → Option (Nat × List Char)
  | a :: b :: c :: rest =>
    if a.isDigit && b.isDigit && c.isDigit then
      some (100 * (a.toNat - 48) + 10 * (b.toNat - 48) + (c.toNat - 48), rest)
    else none
  | _ => none

/-- Consume exactly four digits (moment's `YYYY` token). -/
def take4 : List Char → Option (Nat × List Char)
  | a :: b :: c :: d :: rest =>
    if a.isDigit && b.isDigit && c.isDigit && d.isDigit then
      some (1000 * (a.toNat - 48) + 100 * (b.toNat - 48) + 10 * (c.toNat - 48) + (d.toNat - 48),
            rest)
    else none
  | _ => none

/-- Consume one or two digits, greedily (moment's `M`, `D`, `H` tokens,
regex `\d\d?` with no cross-token backtracking). -/
def take1or2 : List Char → Option (Nat × List Char)
  | a :: b :: rest =>
    if a.isDigit then
      if b.isDigit then some (10 * (a.toNat - 48) + (b.toNat - 48), rest)
      else some (a.toNat - 48, b :: rest)
    else none
  | [a] => if a.isDigit then some (a.toNat - 48, []) else none
  | [] => none

/-- Consume one literal separator character. -/
def lit (c : Char) : List Char → Option (List Char)
  | x :: rest => if x = c then some rest else none
  | [] => none

/-- moment's `Z` token (`matchShortOffset`): `Z` or a sign, two digits, and an
optional optionally-colon-separated two-digit minute part, greedily. -/
def takeOffset : List Char → Option (List Char)
  | 'Z' :: rest => some rest
  | c :: a :: b :: rest =>
    if (decide (c = '+') || decide (c = '-')) && a.isDigit && b.isDigit then
      match rest with
      | ':' :: x :: y :: rest2 => if x.isDigit && y.isDigit then some rest2 else some rest
      | x :: y :: rest2 => if x.isDigit && y.isDigit then some rest2 else some rest
      | _ => some rest
    else none
  | _ => none

/-- moment's two-digit-year rule: `YY` above 68 is 19YY, otherwise 20YY. -/
def parseTwoDigitYear (y : Nat) : Nat :=
  if y > 68 then 1900 + y else 2000 + y

/-- Gregorian leap-year rule. -/
def isLeapYear (y : Nat) : Bool :=
  (y % 4 == 0 && y % 100 != 0) || y % 400 == 0

/-- Days in a month, with the leap-year rule for February. -/
def daysInMonth (y m : Nat) : Nat :=
  if m = 2 then (if isLeapYear y then 29 else 28)
  else if m = 4 ∨ m = 6 ∨ m = 9 ∨ m = 11 then 30
  else 31

/-- moment's overflow checks on parsed fields: month 1-12, day within the
month, minutes and seconds below 60, hour below 24 (24 allowed only at
exactly 24:00:00). -/
def validParts (p : DateParts) : Bool :=
  decide (1 ≤ p.month) && decide (p.month ≤ 12) &&
  decide (1 ≤ p.day) && decide (p.day ≤ daysInMonth p.year p.month) &&
  (decide (p.hour < 24) || (decide (p.hour = 24) && decide (p.minute = 0) && decide (p.second = 0))) &&
  decide (p.minute ≤ 59) && decide (p.second ≤ 59)

/-- Strict match of `YYYY-MM-DD HH:mm:ss.SSS`. -/
def fmtYmdHmsMs (cs : List Char) : Option DateParts := do
  let (y, cs) ← take4 cs
  let cs ← lit '-' cs
  let (mo, cs) ← take2 cs
  let cs ← lit '-' cs
  let (d, cs) ← take2 cs
  let cs ← lit ' ' cs
  let (h, cs) ← take2 cs
  let cs ← lit ':' cs
  let (mi, cs) ← take2 cs
  let cs ← lit ':' cs
  let (s, cs) ← take2 cs
  let cs ← lit '.' cs
  let (_, cs) ← take3 cs
  if cs.isEmpty then some ⟨y, mo, d, h, mi, s⟩ else none

/-- Strict match of `DD-MM-YYYY HH:mm:ss.SSS`. -/
def fmtDmyHmsMs (cs : List Char) : Option DateParts := do
  let (d, cs) ← take2 cs
  let cs ← lit '-' cs
  let (mo, cs) ← take2 cs
  let cs ← lit '-' cs
  let (y, cs) ← take4 cs
  let cs ← lit ' ' cs
  let (h, cs) ← take2 cs
  let cs ← lit ':' cs
  let (mi, cs) ← take2 cs
  let cs ← lit ':' cs
  let (s, cs) ← take2 cs
  let cs ← lit '.' cs
  let (_, cs) ← take3 cs
  if cs.isEmpty then some ⟨y, mo, d, h, mi, s⟩ else none

/-- Strict match of `YYYY-MM-DD HH:mm:ssZ`. -/
def fmtYmdHmsZ (cs : List Char) : Option DateParts := do
  let (y, cs) ← take4 cs
  let cs ← lit '-' cs
  let (mo, cs) ← take2 cs
  let cs ← lit '-' cs
  let (d, cs) ← take2 cs
  let cs ← lit ' ' cs
  let (h, cs) ← take2 cs
  let cs ← lit ':' cs
  let (mi, cs) ← take2 cs
  let cs ← lit ':' cs
  let (s, cs) ← take2 cs
  let cs ← takeOffset cs
  if cs.isEmpty then some ⟨y, mo, d, h, mi, s⟩ else none

/-- Strict match of `YYYY-MM-DD HH:mm:ss`. -/
def fmtYmdHms (cs : List Char) : Option DateParts := do
  let (y, cs) ← take4 cs
  let cs ← lit '-' cs
  let (mo, cs) ← take2 cs
  let cs ← lit '-' cs
  let (d, cs) ← take2 cs
  let cs ← lit ' ' cs
  let (h, cs) ← take2 cs
  let cs ← lit ':' cs
  let (mi, cs) ← take2 cs
  let cs ← lit ':' cs
  let (s, cs) ← take2 cs
  if cs.isEmpty then some ⟨y, mo, d, h, mi, s⟩ else none

/-- Strict match of `YYYY/MM/DD HH:mm:ss.SSS`. -/
def fmtYmdSlashHmsMs (cs : List Char) : Option DateParts := do
  let (y, cs) ← take4 cs
  let cs ← lit '/' cs
  let (mo, cs) ← take2 cs
  let cs ← lit '/' cs
  let (d, cs) ← take2 cs
  let cs ← lit ' ' cs
  let (h, cs) ← take2 cs
  let cs ← lit ':' cs
  let (mi, cs) ← take2 cs
  let cs ← lit ':' cs
  let (s, cs) ← take2 cs
  let cs ← lit '.' cs
  let (_, cs) ← take3 cs
  if cs.isEmpty then some ⟨y, mo, d, h, mi, s⟩ else none

/-- Strict match of `M/D/YY H:mm`. -/
def fmtMdyHm (cs : List Char) : Option DateParts := do
  let (mo, cs) ← take1or2 cs
  let cs ← lit '/' cs
  let (d, cs) ← take1or2 cs
  let cs ← lit '/' cs
  let (y2, cs) ← take2 cs
  let cs ← lit ' ' cs
  let (h, cs) ← take1or2 cs
  let cs ← lit ':' cs
  let (mi, cs) ← take2 cs
  if cs.isEmpty then some ⟨parseTwoDigitYear y2, mo, d, h, mi, 0⟩ else none

/-- Source `isDatetime(value)` (sqlize.js lines 266-282): value strictly matches one
of the six accepted datetime formats and passes the overflow checks.
(The dead local `moment(value, "M/D/YY HH:mm", true)` on line 267 is unused
by the return value and is not modeled.) -/
def isDatetime (value : String) : Bool :=
  let cs := value.data
  [fmtYmdHmsMs cs, fmtDmyHmsMs cs, fmtYmdHmsZ cs, fmtYmdHms cs,
   fmtYmdSlashHmsMs cs, fmtMdyHm cs].any
    (fun r => match r with
      | some p => validParts p
      | none => false)

/-- The bare-date test `/^\d{4}-\d{2}-\d{2}/.test(value)` (sqlize.js
line 259): a `YYYY-MM-DD` shaped prefix, trailing input unconstrained. -/
def matchesDateStart (s : String) : Bool :=
  match s.data with
  | a :: b :: c :: d :: '-' :: e :: f :: '-' :: g :: h :: _ =>
    a.isDigit && b.isDigit && c.isDigit && d.isDigit && e.isDigit && f.isDigit &&
      g.isDigit && h.isDigit
  | _ => false

/-- Source `inferDataType(value)` (sqlize.js lines 240-264). Empty string is the
only falsy string, so `!value` is `value = ""`. -/
def inferDataType (value : String) : String :=
  if value = "" then "null"
  else if matchesNumericPattern value then
    if numericIsInteger value then
      if numericIntValue value > 2147483647 then "varchar(100)"
      else if value = "0.0" then "decimal(15, 5)"
      else "int"
    else "decimal(15, 5)"
  else if isDatetime value then "datetime"
  else if matchesDateStart value then "date"
  else "varchar(255)"


/-- Command-line options consumed by the core (yargs plumbing itself is not
modeled): absent string options are `none`, and a present-but-empty string is
falsy in every guard below, exactly as in JS. -/
structure Options where
  addPrimaryKey : Bool
  primaryKeyColumn : Option String
  addForeignKeyToFile : Option String
  addForeignKeyColumn : Option String
  addBlankColumns : Option String
  forceTextColumns : Option String
  dropTable : Bool
  lookup : String
  sqlbatchsize : Nat

/-- JS truthiness of a possibly-absent string option (`undefined` and `""`
are falsy). -/
def jsTruthy : Option String → Bool
  | none => false
  | some s => !(s == "")

/-- The raw string of a possibly-absent string option (used only where the
source reads it after a truthiness guard). -/
def jsStr (o : Option String) : String := o.getD ""

/-- The `forceTextColumns` option parsing (sqlize.js lines 99-107): split on
commas, trim, lowercase. -/
def parseForceTextColumns (opts : Options) : List String :=
  if jsTruthy opts.forceTextColumns then
    (jsSplitComma (jsStr opts.forceTextColumns)).map (fun column => jsToLower (jsTrim column))
  else []

/-- Source `analyzeRow(row)` (sqlize.js lines 210-238), acting on one schema value
instead of the `tableSchema` global: for each field, lowercase the key; the
lookup column is pinned to `int`, a forced-text column is pinned to
`varchar(255)`, an unseen column is initialized from its first value, and an
already-typed column is widened only by a strictly more specific type of a
non-empty value. -/
def analyzeRowStep (forceText : List String) (lookupColumn : String)
    (sch : List (String × String)) (kv : String × String) : List (String × String) :=
  if jsToLower kv.1 = lookupColumn then alistSet sch (jsToLower kv.1) "int"
  else if strMem (jsToLower kv.1) forceText then alistSet sch (jsToLower kv.1) "varchar(255)"
  else
    match alistGet sch (jsToLower kv.1) with
    | none => alistSet sch (jsToLower kv.1) (inferDataType kv.2)
    | some currentType =>
      if kv.2 ≠ "" then
        if isMoreSpecificDataType currentType (inferDataType kv.2) then
          alistSet sch (jsToLower kv.1) (inferDataType kv.2)
        else sch
      else sch

/-- Source `analyzeRow(row)` as a fold of `analyzeRowStep` over the row's entries. -/
def analyzeRow (forceText : List String) (lookupColumn : String)
    (schema : List (String × String)) (row : Row) : List (String × String) :=
  row.foldl (analyzeRowStep forceText lookupColumn) schema

/-- The analysis pass folded over a list of rows, starting from the empty
`tableSchema`. -/
def analyzeRows (forceText : List String) (lookupColumn : String)
    (rows : List Row) : List (String × String) :=
  rows.foldl (analyzeRow forceText lookupColumn) []

/-- Source `setDefaultDataTypes()` (sqlize.js lines 133-139): any column still
`"null"` after sampling becomes `varchar(255)`. -/
def setDefaultDataTypes (schema : List (String × String)) : List (String × String) :=
  schema.map (fun kv => if kv.2 = "null" then (kv.1, "varchar(255)") else kv)

/-- Source `createColumnIndexToDataTypeMap()` (sqlize.js lines 141-148): the map
from column index to data type is the schema's types in key order. -/
def createColumnIndexToDataTypeMap (schema : List (String × String)) : List String :=
  schema.map (fun kv => kv.2)

/-- A JS value flowing through `generateInsertStatement`: the raw string
field, or the numeric lookup id substituted for it. -/
inductive JSVal where
  | str (s : String)
  | num (n : Nat)
deriving DecidableEq, Repr

/-- Template-literal interpolation of a value. -/
def jsvalToString : JSVal → String
  | .str s => s
  | .num n => toString n

/-- JS falsiness of the values reaching `quoteIfNeeded`: the empty string and
the number 0. -/
def jsFalsy : JSVal → Bool
  | .str s => s == ""
  | .num n => n == 0

/-- The single-quote character, `'`. -/
def singleQuoteChar : Char := Char.ofNat 39

/-- The global single-character replacement `value.replace(/'/g, "''")` of
`escapeSingleQuotes` (sqlize.js line 395), character by character. -/
def escapeQuotesStr (s : String) : String :=
  ⟨(s.data.map (fun c =>
      if c = singleQuoteChar then [singleQuoteChar, singleQuoteChar] else [c])).flatten⟩

/-- Source `escapeSingleQuotes(value)` (sqlize.js lines 393-398): strings are
escaped, non-strings returned unchanged. -/
def escapeSingleQuotes : JSVal → JSVal
  | .str s => .str (escapeQuotesStr s)
  | .num n => .num n

/-- The `needQuotes` array of `quoteIfNeeded` (sqlize.js line 381). -/
def needQuotes : List String :=
  ["varchar(100)", "varchar(255)", "date", "datetime"]

/-- Source `quoteIfNeeded(value, datatype)` (sqlize.js lines 380-391): falsy values
render as the bare literal `null`; quoted types wrap the escaped value in
single quotes; everything else renders bare. -/
def quoteIfNeeded (value : JSVal) (datatype : String) : String :=
  if jsFalsy value then "null"
  else if strMem datatype needQuotes then
    "'" ++ jsvalToString (escapeSingleQuotes value) ++ "'"
  else jsvalToString value

/-- Lenient numeric-token match: moment (non-strict) searches the token's
regex `\d\d?` anywhere in the remaining input, discarding what precedes the
first match. -/
def lenientNum (cs : List Char) : Option (Nat × List Char) :=
  take1or2 (cs.dropWhile (fun c => !c.isDigit))

/-- Lenient literal-separator match: moment (non-strict) skips through the
first occurrence of the separator, or leaves the input unchanged when the
separator never occurs (the unmatched token is ignored). -/
def lenientLit (c : Char) (cs : List Char) : List Char :=
  if cs.contains c then (cs.dropWhile (fun x => !(x == c))).drop 1 else cs

/-- Reference date standing in for the run date: moment (non-strict) defaults
calendar fields above the highest parsed unit from the current date. The run
date is modeled as this fixed constant; no claim settled below exercises a
parse in which it matters. -/
def refDate : Nat × Nat × Nat := (2026, 1, 1)

/-- The non-strict parse `moment(value, 'M/D/YY HH:mm')` performed by
`generateInsertStatement` on datetime columns (sqlize.js line 349): tokens
`M`, `/`, `D`, `/`, `YY`, space, `HH`, `:`, `mm` matched leniently in order.
Because each numeric token takes the first remaining digit run, the parsed
fields form a prefix of (month, day, year, hour, minute); unparsed trailing
fields default to day 1 / hour 0 / minute 0, and an unparsed year defaults to
the reference year. A parse with no matched token at all is invalid (moment's
`empty` flag), and the overflow checks are as in strict mode. -/
def momentLenientMdyHm (s : String) : Option DateParts :=
  let cs := s.data
  match lenientNum cs with
  | none => none
  | some (mo, cs) =>
    let cs := lenientLit '/' cs
    let (d, cs) := match lenientNum cs with
      | some (d, cs) => (some d, cs)
      | none => (none, cs)
    let cs := lenientLit '/' cs
    let (y2, cs) := match lenientNum cs with
      | some (y, cs) => (some y, cs)
      | none => (none, cs)
    let cs := lenientLit ' ' cs
    let (h, cs) := match lenientNum cs with
      | some (h, cs) => (some h, cs)
      | none => (none, cs)
    let cs := lenientLit ':' cs
    let mi := match lenientNum cs with
      | some (mi, _) => some mi
      | none => none
    let year := match y2 with
      | some y => parseTwoDigitYear y
      | none => refDate.1
    let p : DateParts := ⟨year, mo, d.getD 1, h.getD 0, mi.getD 0, 0⟩
    if validParts p then some p else none

/-- Zero-padded two-digit rendering. -/
def pad2 (n : Nat) : String :=
  if n < 10 then "0" ++ toString n else toString n

/-- Zero-padded four-digit rendering. -/
def pad4 (n : Nat) : String :=
  if n < 10 then "000" ++ toString n
  else if n < 100 then "00" ++ toString n
  else if n < 1000 then "0" ++ toString n
  else toString n

/-- Source `parsedDate.format('YYYY-MM-DD HH:mm:ss')` (sqlize.js line 352), with
moment's rollover of a parsed 24:00 to 00:00 of the next day. -/
def formatYmdHms (p : DateParts) : String :=
  let q :=
    if p.hour = 24 then
      if p.day + 1 ≤ daysInMonth p.year p.month then
        { p with day := p.day + 1, hour := 0 }
      else if p.month + 1 ≤ 12 then
        { p with month := p.month + 1, day := 1, hour := 0 }
      else ⟨p.year + 1, 1, 1, 0, p.minute, p.second⟩
    else p
  pad4 q.year ++ "-" ++ pad2 q.month ++ "-" ++ pad2 q.day ++ " " ++
    pad2 q.hour ++ ":" ++ pad2 q.minute ++ ":" ++ pad2 q.second

/-- Source `foreignKeyFor(value)` (sqlize.js lines 372-374): the mapped id (always
truthy, ids start at 1) or the literal `NULL`. -/
def foreignKeyFor (fkMap : List (String × Nat)) (value : String) : String :=
  match alistGet fkMap value with
  | some id => toString id
  | none => "NULL"

/-- Source `addLookupValue(value)` (sqlize.js lines 376-378): store the next id for
the value and bump the counter. -/
def addLookupValue (lookupTableValues : List (String × Nat)) (lookupPkCounter : Nat)
    (value : String) : List (String × Nat) × Nat :=
  (alistSet lookupTableValues value lookupPkCounter, lookupPkCounter + 1)

/-- Mutable run state threaded through the encoding pass: the lookup
value-to-id map and its counter, the primary-key counter, and the `rows`
buffer of encoded tuples. -/
structure EncodeState where
  lookupTableValues : List (String × Nat)
  lookupPkCounter : Nat
  primaryKeyCounter : Nat
  rowsBuf : List String
deriving DecidableEq, Repr

/-- The state at program start (counters at 1, everything empty). -/
def initialEncodeState : EncodeState := ⟨[], 1, 1, []⟩

/-- Source `generateInsertStatement(row)` (sqlize.js lines 337-370). Per field, in
column order: a field of the lookup column is replaced by its escaped value's
lookup id, assigning `lookupPkCounter++` on first sight (`addLookupValue`,
lines 376-378); a field whose column type is `datetime` is reformatted to
`YYYY-MM-DD HH:mm:ss` when the lenient `M/D/YY HH:mm` parse succeeds;
then the field renders through `quoteIfNeeded`. The tuple is the rendered
values, then the primary-key counter when enabled, then the foreign-key id
when enabled, empty parts dropped. A column index beyond the schema maps to
the out-of-range type `""`, which quotes as bare, as `undefined` does. -/
def generateInsertStatement (opts : Options) (fkMap : List (String × Nat))
    (colTypes : List String) (st : EncodeState) (row : Row) : EncodeState :=
  let start : List String × List (String × Nat) × Nat :=
    ([], st.lookupTableValues, st.lookupPkCounter)
  let folded := row.enum.foldl
    (fun (acc : List String × List (String × Nat) × Nat) ikv =>
      let vals := acc.1
      let m := acc.2.1
      let ctr := acc.2.2
      let index := ikv.1
      let keyName := ikv.2.1
      let rawValue := ikv.2.2
      let dt := colTypes.getD index ""
      let sub : JSVal × List (String × Nat) × Nat :=
        if jsToLower keyName = jsToLower opts.lookup then
          let lookupValue := escapeQuotesStr rawValue
          match alistGet m lookupValue with
          | some id => (.num id, m, ctr)
          | none => (.num ctr, (addLookupValue m ctr lookupValue).1, (addLookupValue m ctr lookupValue).2)
        else (.str rawValue, m, ctr)
      let value :=
        if dt = "datetime" then
          match momentLenientMdyHm (jsvalToString sub.1) with
          | some p => JSVal.str (formatYmdHms p)
          | none => sub.1
        else sub.1
      (vals ++ [quoteIfNeeded value dt], sub.2.1, sub.2.2))
    start
  let values := String.intercalate ", " folded.1
  let primaryKeyValue := if opts.addPrimaryKey then toString st.primaryKeyCounter else ""
  let foreignKeyValue :=
    if jsTruthy opts.addForeignKeyColumn then
      foreignKeyFor fkMap ((alistGet row (jsStr opts.addForeignKeyColumn)).getD "undefined")
    else ""
  let insertParts := [values, primaryKeyValue, foreignKeyValue].filter (fun part => part ≠ "")
  { lookupTableValues := folded.2.1
    lookupPkCounter := folded.2.2
    primaryKeyCounter := if opts.addPrimaryKey then st.primaryKeyCounter + 1 else st.primaryKeyCounter
    rowsBuf := st.rowsBuf ++ ["(" ++ String.intercalate ", " insertParts ++ ")"] }

/-- Source `generateDropTableStatement(table)` (sqlize.js lines 333-335). -/
def generateDropTableStatement (dropTable : Bool) (table : String) : String :=
  if dropTable then "\n\nDROP TABLE IF EXISTS " ++ table ++ ";\n" else ""

/-- The derived lookup table name `<tableName>_<columnName>_lookup`
(sqlize.js line 401). -/
def lookupTableNameOf (tableName columnName : String) : String :=
  tableName ++ "_" ++ columnName ++ "_lookup"

/-- Source `createLookupTable(columnName)` (sqlize.js lines 400-418): the two chunks
appended to the output at program start when a lookup column is configured —
the lookup table's DROP (possibly empty) and its fixed two-column CREATE. -/
def createLookupTable (dropTable : Bool) (tableName columnName : String) : List String :=
  [generateDropTableStatement dropTable (lookupTableNameOf tableName columnName),
   "CREATE TABLE IF NOT EXISTS " ++ lookupTableNameOf tableName columnName ++
     " (\n    id INT AUTO_INCREMENT PRIMARY KEY,\nvalue VARCHAR(100)\n  );\n"]

/-- Source `generateLookupTableInsertStatements()` (sqlize.js lines 197-208): one
INSERT per stored lookup value, in insertion order, joined by newlines and
appended as one chunk. The stored key was escaped when it was added and is
escaped again here, as in the source. -/
def generateLookupTableInsertStatements (lookupTableName : String)
    (lookupTableValues : List (String × Nat)) : String :=
  String.intercalate "\n"
    (lookupTableValues.map (fun kv =>
      "INSERT INTO " ++ lookupTableName ++ " (id, value) VALUES (" ++ toString kv.2 ++
        ", '" ++ escapeQuotesStr kv.1 ++ "');"))

/-- Source `generateCreateTableStatement()` (sqlize.js lines 300-331). Mutates the
schema first: the auto-increment `id` column when the primary-key option is
on, then the `<column>_fk` column when the foreign-key option is on. Returns
the CREATE statement and the mutated schema (the source mutates the
`tableSchema` global, which `insertRows` reads afterwards). Blank columns are
appended to the column text only, not to the schema. -/
def generateCreateTableStatement (opts : Options) (tableName : String)
    (schema : List (String × String)) : String × List (String × String) :=
  let s1 :=
    if opts.addPrimaryKey then alistSet schema "id" "INT AUTO_INCREMENT PRIMARY KEY" else schema
  let s2 :=
    if jsTruthy opts.addForeignKeyColumn then
      alistSet s1 (jsStr opts.addForeignKeyColumn ++ "_fk") "INT"
    else s1
  let columns := String.intercalate ",\n  "
    (s2.map (fun kv =>
      if opts.primaryKeyColumn = some kv.1 then kv.1 ++ " " ++ kv.2 ++ " PRIMARY KEY"
      else kv.1 ++ " " ++ kv.2))
  let columns2 :=
    if jsTruthy opts.addBlankColumns then
      (jsSplitComma (jsStr opts.addBlankColumns)).foldl
        (fun acc column => acc ++ ",\n" ++ jsToLower (jsTrim column) ++ " varchar(100)") columns
    else columns
  ("CREATE TABLE IF NOT EXISTS " ++ tableName ++ " (\n  " ++ columns2 ++ "\n  );\n", s2)

/-- Worker for `sliceBatches`, structurally recursive on a fuel bounded by
the list length (each slice removes at least one element when the batch size
is positive, so the fuel never runs out early). -/
def sliceBatchesAux : Nat → List String → Nat → List (List String)
  | 0, _, _ => []
  | _ + 1, [], _ => []
  | fuel + 1, x :: rest, bs => (x :: rest).take bs :: sliceBatchesAux fuel ((x :: rest).drop bs) bs

/-- The batching loop of `insertRows()` (sqlize.js lines 177-184): successive
slices of `sqlbatchsize` rows. A zero batch size never terminates in JS and
is modeled as producing nothing. -/
def sliceBatches (l : List String) (bs : Nat) : List (List String) :=
  if bs = 0 then [] else sliceBatchesAux l.length l bs

/-- Source `insertRows()` (sqlize.js lines 173-186): one multi-row INSERT per batch,
the statements joined by blank lines into a single appended chunk. The column
list is read from the (already mutated) schema. -/
def insertRows (opts : Options) (tableName : String)
    (mutatedSchema : List (String × String)) (rowsBuf : List String) : String :=
  let columnsList := mutatedSchema.map (fun kv => kv.1)
  String.intercalate "\n\n"
    ((sliceBatches rowsBuf opts.sqlbatchsize).map (fun batchData =>
      "INSERT INTO " ++ tableName ++ " (" ++ String.intercalate ", " columnsList ++
        ")\n VALUES " ++ String.intercalate ",\n" batchData ++ ";"))

/-- Source `checkForeignKeyArgs()` (sqlize.js lines 440-447) as a predicate: the run
is fatal (exit 1) unless both foreign-key options are truthy. -/
def checkForeignKeyArgs (opts : Options) : Bool :=
  jsTruthy opts.addForeignKeyColumn && jsTruthy opts.addForeignKeyToFile

/-- One data-event of the pre-scan in `computeForeignKeys` (sqlize.js lines
427-434): read the join column (an absent column reads as `undefined`, which
indexes as the string `"undefined"`), warn when the key is already present,
and assign `++pkCounter` unconditionally. The state is (map, pkCounter,
warnings so far). -/
def computeForeignKeysStep (acc : List (String × Nat) × Nat × Nat) (key : String) :
    List (String × Nat) × Nat × Nat :=
  let m := acc.1
  let pkCounter := acc.2.1
  let warns := acc.2.2
  let warns2 := if (alistGet m key).isSome then warns + 1 else warns
  (alistSet m key (pkCounter + 1), pkCounter + 1, warns2)

/-- Source `computeForeignKeys(andThen)`'s pre-scan over the second file (sqlize.js
lines 420-438), returning the value-to-id map, the final counter, and the
number of duplicate warnings printed. -/
def computeForeignKeys (joinColumn : String) (rows : List Row) :
    List (String × Nat) × Nat × Nat :=
  rows.foldl
    (fun acc row => computeForeignKeysStep acc ((alistGet row joinColumn).getD "undefined"))
    ([], 0, 0)

/-- The chunks appended by `readCSVFile()`'s end handler (sqlize.js lines
150-171), after every row has been encoded: the lookup-table INSERTs (when a
lookup column is configured — `generateLookupTableInsertStatements` appends
immediately when called, before the main table's statements), then the main
DROP, the main CREATE, and the batched INSERT chunk. -/
def readCSVFileEndChunks (opts : Options) (tableName : String)
    (schema : List (String × String)) (st : EncodeState) : List String :=
  let lookupChunks :=
    if !(opts.lookup == "") then
      [generateLookupTableInsertStatements (lookupTableNameOf tableName opts.lookup)
        st.lookupTableValues]
    else []
  let created := generateCreateTableStatement opts tableName schema
  lookupChunks ++
    [generateDropTableStatement opts.dropTable tableName, created.1,
     insertRows opts tableName created.2 st.rowsBuf]

/-- The run state after the encoding pass has pushed every row of the file
through `generateInsertStatement`. -/
def readCSVFileState (opts : Options) (fkMap : List (String × Nat))
    (colTypes : List String) (rows : List Row) : EncodeState :=
  rows.foldl (generateInsertStatement opts fkMap colTypes) initialEncodeState

/-- The whole encoding pass `readCSVFile()` (sqlize.js lines 150-171): every
row of the file goes through `generateInsertStatement`, then the end handler
emits its chunks. -/
def readCSVFile (opts : Options) (tableName : String) (fkMap : List (String × Nat))
    (colTypes : List String) (schema : List (String × String)) (rows : List Row) :
    List String :=
  readCSVFileEndChunks opts tableName schema (readCSVFileState opts fkMap colTypes rows)

/-- The analysis-pass sample cap: `rowCount++ < 5000` (sqlize.js line 122). -/
def sampleCap : Nat := 5000

/-- The schema finalized by the analysis pass: `analyzeRow` over the first
`sampleCap` sampled rows, then `setDefaultDataTypes`. -/
def encodeRunSchema (opts : Options) (rows : List Row) : List (String × String) :=
  setDefaultDataTypes (analyzeRows (parseForceTextColumns opts) opts.lookup (rows.take sampleCap))

/-- Everything the output file holds over a run in which the encoding pass
executes: the startup lookup DROP/CREATE chunks, then the encoding pass's
chunks computed against the finalized sampled schema.
`analyzeAndProcessCSVFile` reaches this code exactly when the source file
exceeds the sample cap (see `analyzeAndProcessCSVFile` below); the emission
order is independent of that trigger. -/
def encodeRunChunks (opts : Options) (tableName : String) (fkMap : List (String × Nat))
    (rows : List Row) : List String :=
  let startup :=
    if !(opts.lookup == "") then createLookupTable opts.dropTable tableName opts.lookup
    else []
  startup ++ readCSVFile opts tableName fkMap
    (createColumnIndexToDataTypeMap (encodeRunSchema opts rows)) (encodeRunSchema opts rows) rows

/-- Observable outcome of a whole run: the exit code when `process.exit` was
called, the number of row data-events consumed from any file, and the chunks
appended to the output file (which `fs.writeFileSync` initialized empty). -/
structure ProgramTrace where
  exitCode : Option Nat
  rowsRead : Nat
  chunks : List String
deriving DecidableEq, Repr

/-- Source `analyzeAndProcessCSVFile()` (sqlize.js lines 116-131) and what follows
it. The data handler analyzes a row only while `rowCount++ < 5000`; the
5001st row instead destroys the stream, finalizes the schema and starts
`readCSVFile()`. The stream has no end handler, so a file of at most 5000
rows fires only analyze events and the run ends with nothing appended. -/
def analyzeAndProcessCSVFile (opts : Options) (tableName : String)
    (fkMap : List (String × Nat)) (startup : List String) (preRows : Nat)
    (rows : List Row) : ProgramTrace :=
  if rows.length ≤ sampleCap then
    ⟨none, preRows + rows.length, startup⟩
  else
    ⟨none, preRows + (sampleCap + 1) + rows.length,
     encodeRunChunks opts tableName fkMap rows⟩

/-- The top-level flow (sqlize.js lines 94-114): the lookup table's chunks
are written at startup; then, when either foreign-key option is set,
`computeForeignKeys` runs first — exiting with code 1 before any stream is
opened when `checkForeignKeyArgs` fails — and `analyzeAndProcessCSVFile`
continues on its end event; otherwise the main file is processed directly. -/
def runProgram (opts : Options) (tableName : String) (fkRows mainRows : List Row) :
    ProgramTrace :=
  let startup :=
    if !(opts.lookup == "") then createLookupTable opts.dropTable tableName opts.lookup
    else []
  if jsTruthy opts.addForeignKeyToFile || jsTruthy opts.addForeignKeyColumn then
    if !checkForeignKeyArgs opts then ⟨some 1, 0, startup⟩
    else
      let fk := computeForeignKeys (jsStr opts.addForeignKeyColumn) fkRows
      analyzeAndProcessCSVFile opts tableName fk.1 startup fkRows.length mainRows
  else analyzeAndProcessCSVFile opts tableName [] startup 0 mainRows

/-! Theorems -/

theorem matchesNumericPattern_ne_empty {v : String} (h : matchesNumericPattern v = true) :
    v ≠ "" := by
  intro he
  subst he
  exact absurd h (by decide)

theorem isDatetime_ne_empty {v : String} (h : isDatetime v = true) : v ≠ "" := by
  intro he
  subst he
  exact absurd h (by decide)

theorem matchesDateStart_ne_empty {v : String} (h : matchesDateStart v = true) : v ≠ "" := by
  intro he
  subst he
  exact absurd h (by decide)

/-- C3: `inferDataType` follows the strict priority cascade numeric →
datetime → date → text, first match wins: an empty value yields `null`; a
value matching the optional-sign optionally-decimal numeric pattern yields
`int` if integral and `decimal(15, 5)` otherwise, except that an integral
value exceeding the signed 32-bit maximum 2147483647 yields the short-text
type `varchar(100)` and the literal `"0.0"` yields `decimal(15, 5)`; a
non-numeric value matching an accepted datetime pattern yields `datetime`;
otherwise a value starting with a `YYYY-MM-DD` prefix yields `date`;
otherwise the long-text type `varchar(255)`. -/
theorem c3_infer_priority_cascade (v : String) :
    (v = "" → inferDataType v = "null")
    ∧ (matchesNumericPattern v = true → numericIsInteger v = true →
        numericIntValue v > 2147483647 → inferDataType v = "varchar(100)")
    ∧ (matchesNumericPattern v = true → numericIsInteger v = true →
        numericIntValue v ≤ 2147483647 → v = "0.0" → inferDataType v = "decimal(15, 5)")
    ∧ (matchesNumericPattern v = true → numericIsInteger v = true →
        numericIntValue v ≤ 2147483647 → v ≠ "0.0" → inferDataType v = "int")
    ∧ (matchesNumericPattern v = true → numericIsInteger v = false →
        inferDataType v = "decimal(15, 5)")
    ∧ (matchesNumericPattern v = false → isDatetime v = true → inferDataType v = "datetime")
    ∧ (matchesNumericPattern v = false → isDatetime v = false → matchesDateStart v = true →
        inferDataType v = "date")
    ∧ (v ≠ "" → matchesNumericPattern v = false → isDatetime v = false →
        matchesDateStart v = false → inferDataType v = "varchar(255)") := by
  refine ⟨?_, ?_, ?_, ?_, ?_, ?_, ?_, ?_⟩
  · intro he
    subst he
    decide
  · intro h1 h2 h3
    have hv := matchesNumericPattern_ne_empty h1
    unfold inferDataType
    rw [if_neg hv, if_pos h1, if_pos h2, if_pos h3]
  · intro h1 h2 h3 h4
    have hv := matchesNumericPattern_ne_empty h1
    have hle : ¬ numericIntValue v > 2147483647 := not_lt.mpr h3
    unfold inferDataType
    rw [if_neg hv, if_pos h1, if_pos h2, if_neg hle, if_pos h4]
  · intro h1 h2 h3 h4
    have hv := matchesNumericPattern_ne_empty h1
    have hle : ¬ numericIntValue v > 2147483647 := not_lt.mpr h3
    unfold inferDataType
    rw [if_neg hv, if_pos h1, if_pos h2, if_neg hle, if_neg h4]
  · intro h1 h2
    have hv := matchesNumericPattern_ne_empty h1
    unfold inferDataType
    rw [if_neg hv, if_pos h1, if_neg (by simp [h2])]
  · intro h1 h2
    have hv := isDatetime_ne_empty h2
    unfold inferDataType
    rw [if_neg hv, if_neg (by simp [h1]), if_pos h2]
  · intro h1 h2 h3
    have hv := matchesDateStart_ne_empty h3
    unfold inferDataType
    rw [if_neg hv, if_neg (by simp [h1]), if_neg (by simp [h2]), if_pos h3]
  · intro hv h1 h2 h3
    unfold inferDataType
    rw [if_neg hv, if_neg (by simp [h1]), if_neg (by simp [h2]), if_neg (by simp [h3])]

/-- Witness for C3: the cascade evaluated on one concrete input per branch. -/
theorem c3_infer_priority_cascade_witness :
    inferDataType "200" = "int" ∧ inferDataType "3000000000" = "varchar(100)" ∧
    inferDataType "0.0" = "decimal(15, 5)" ∧ inferDataType "1.5" = "decimal(15, 5)" ∧
    inferDataType "2021-01-01 10:00:00" = "datetime" ∧ inferDataType "2021-01-01" = "date" ∧
    inferDataType "hello" = "varchar(255)" :=
  ⟨(c3_infer_priority_cascade "200").2.2.2.1 (by decide) (by decide) (by decide) (by decide),
   (c3_infer_priority_cascade "3000000000").2.1 (by decide) (by decide) (by decide),
   (c3_infer_priority_cascade "0.0").2.2.1 (by decide) (by decide) (by decide) (by decide),
   (c3_infer_priority_cascade "1.5").2.2.2.2.1 (by decide) (by decide),
   (c3_infer_priority_cascade "2021-01-01 10:00:00").2.2.2.2.2.1 (by decide) (by decide),
   (c3_infer_priority_cascade "2021-01-01").2.2.2.2.2.2.1 (by decide) (by decide) (by decide),
   (c3_infer_priority_cascade "hello").2.2.2.2.2.2.2 (by decide) (by decide) (by decide)
     (by decide)⟩

/-- C10: every integral numeric string strictly below the signed 32-bit
minimum is classified `int`, not short-text — the overflow reclassification
in `inferDataType` applies only beyond the positive bound 2147483647, never
to negative values of any magnitude. -/
theorem c10_negative_integrals_stay_int (v : String)
    (h1 : matchesNumericPattern v = true) (h2 : numericIsInteger v = true)
    (h3 : numericIntValue v < -2147483648) : inferDataType v = "int" := by
  have hv := matchesNumericPattern_ne_empty h1
  have hz : v ≠ "0.0" := by
    intro he
    rw [he] at h3
    exact absurd h3 (by decide)
  have hle : ¬ numericIntValue v > 2147483647 := by
    intro hgt
    omega
  unfold inferDataType
  rw [if_neg hv, if_pos h1, if_pos h2, if_neg hle, if_neg hz]

/-- Witness for C10 at the claim's example `"-3000000000"`. -/
theorem c10_negative_integrals_stay_int_witness : inferDataType "-3000000000" = "int" :=
  c10_negative_integrals_stay_int "-3000000000" (by decide) (by decide) (by decide)

/-- The evolution of one (non-lookup, non-forced) column's schema entry under
a single `analyzeRow` observation: first value initializes, a later non-empty
value reconciles, an empty value is skipped. -/
def analyzeColumnStep (o : Option String) (v : String) : Option String :=
  match o with
  | none => some (inferDataType v)
  | some currentType =>
    if v ≠ "" then some (reconcile currentType (inferDataType v)) else some currentType

/-- A one-column schema holding the given column's entry, when present. -/
def schemaOfCol (ck : String) : Option String → List (String × String)
  | none => []
  | some t => [(ck, t)]

theorem analyzeRow_single_col (forceText : List String) (lookupColumn c v : String)
    (o : Option String) (hF : strMem (jsToLower c) forceText = false)
    (hL : jsToLower c ≠ lookupColumn) :
    analyzeRow forceText lookupColumn (schemaOfCol (jsToLower c) o) [(c, v)]
      = schemaOfCol (jsToLower c) (analyzeColumnStep o v) := by
  cases o with
  | none =>
    simp [analyzeRow, analyzeRowStep, analyzeColumnStep, schemaOfCol, hF, hL, alistGet, alistSet]
  | some t =>
    by_cases hv : v = ""
    · subst hv
      simp [analyzeRow, analyzeRowStep, analyzeColumnStep, schemaOfCol, hF, hL, alistGet,
        alistSet]
    · by_cases hms : isMoreSpecificDataType t (inferDataType v) = true
      · simp [analyzeRow, analyzeRowStep, analyzeColumnStep, schemaOfCol, hF, if_neg hL, hv,
          hms, alistGet, alistSet, reconcile]
      · simp [analyzeRow, analyzeRowStep, analyzeColumnStep, schemaOfCol, hF, if_neg hL, hv,
          hms, alistGet, alistSet, reconcile]

theorem foldl_analyzeRow_single_col (forceText : List String) (lookupColumn c : String)
    (vs : List String) (o : Option String) (hF : strMem (jsToLower c) forceText = false)
    (hL : jsToLower c ≠ lookupColumn) :
    (vs.map (fun v => [(c, v)])).foldl (analyzeRow forceText lookupColumn)
        (schemaOfCol (jsToLower c) o)
      = schemaOfCol (jsToLower c) (vs.foldl analyzeColumnStep o) := by
  induction vs generalizing o with
  | nil => rfl
  | cons v vs ih =>
    simp only [List.map_cons, List.foldl_cons,
      analyzeRow_single_col forceText lookupColumn c v o hF hL]
    exact ih (analyzeColumnStep o v)

theorem foldl_analyzeColumnStep_some (vs : List String) (cur : String) :
    vs.foldl analyzeColumnStep (some cur)
      = some (((vs.filter (fun v => v ≠ "")).map inferDataType).foldl reconcile cur) := by
  induction vs generalizing cur with
  | nil => rfl
  | cons v vs ih =>
    by_cases hv : v = ""
    · subst hv
      simpa [analyzeColumnStep] using ih cur
    · simp only [List.foldl_cons, analyzeColumnStep, if_pos hv, List.filter_cons,
        List.map_cons]
      rw [if_pos (by simpa using hv)]
      simpa using ih (reconcile cur (inferDataType v))

theorem infer_more_specific_than_null {v : String} (h : v ≠ "") :
    isMoreSpecificDataType "null" (inferDataType v) = true := by
  unfold inferDataType
  rw [if_neg h]
  repeat' split
  all_goals decide

theorem foldl_analyzeColumnStep_none (vs : List String)
    (h : vs.filter (fun v => v ≠ "") ≠ []) :
    vs.foldl analyzeColumnStep none
      = some (((vs.filter (fun v => v ≠ "")).map inferDataType).foldl reconcile "null") := by
  cases vs with
  | nil => exact absurd rfl h
  | cons v vs =>
    by_cases hv : v = ""
    · subst hv
      simp only [List.foldl_cons, analyzeColumnStep, List.filter_cons]
      rw [if_neg (by simp)]
      exact foldl_analyzeColumnStep_some vs "null"
    · simp only [List.foldl_cons, analyzeColumnStep, List.filter_cons, List.map_cons]
      rw [if_pos (by simpa using hv)]
      simp only [List.map_cons, List.foldl_cons]
      rw [foldl_analyzeColumnStep_some vs (inferDataType v)]
      have : reconcile "null" (inferDataType v) = inferDataType v := by
        unfold reconcile
        rw [if_pos (infer_more_specific_than_null hv)]
      rw [this]

theorem reconcile_idx_ge_left (a b : String) :
    jsIndexOf dataTypePriority a ≤ jsIndexOf dataTypePriority (reconcile a b) := by
  unfold reconcile
  split
  · rename_i h
    simp only [isMoreSpecificDataType, decide_eq_true_eq] at h
    omega
  · exact le_refl _

theorem reconcile_idx_ge_right (a b : String) :
    jsIndexOf dataTypePriority b ≤ jsIndexOf dataTypePriority (reconcile a b) := by
  unfold reconcile
  split
  · exact le_refl _
  · rename_i h
    simp only [isMoreSpecificDataType, decide_eq_true_eq, not_lt] at h
    exact h

theorem foldl_reconcile_idx_ge_seed (l : List String) (a : String) :
    jsIndexOf dataTypePriority a ≤ jsIndexOf dataTypePriority (l.foldl reconcile a) := by
  induction l generalizing a with
  | nil => exact le_refl _
  | cons b l ih =>
    exact le_trans (reconcile_idx_ge_left a b) (ih (reconcile a b))

theorem foldl_reconcile_idx_ge (l : List String) (t : String) : ∀ a : String, t ∈ l →
    jsIndexOf dataTypePriority t ≤ jsIndexOf dataTypePriority (l.foldl reconcile a) := by
  induction l with
  | nil =>
    intro a ht
    cases ht
  | cons b l ih =>
    intro a ht
    rcases List.mem_cons.mp ht with h | h
    · subst h
      exact le_trans (reconcile_idx_ge_right a t) (foldl_reconcile_idx_ge_seed l (reconcile a t))
    · exact ih (reconcile a b) h

theorem foldl_reconcile_mem (l : List String) : ∀ a : String,
    l.foldl reconcile a = a ∨ l.foldl reconcile a ∈ l := by
  induction l with
  | nil =>
    intro a
    exact Or.inl rfl
  | cons b l ih =>
    intro a
    have hr : reconcile a b = a ∨ reconcile a b = b := by
      unfold reconcile
      split
      · exact Or.inr rfl
      · exact Or.inl rfl
    have hfold : (b :: l).foldl reconcile a = l.foldl reconcile (reconcile a b) := rfl
    rcases ih (reconcile a b) with h | h
    · rcases hr with h2 | h2
      · exact Or.inl (by rw [hfold, h, h2])
      · refine Or.inr ?_
        rw [hfold, h, h2]
        exact List.mem_cons_self b l
    · refine Or.inr (List.mem_cons_of_mem _ ?_)
      rw [hfold]
      exact h

/-- C2: for a column that is neither the lookup column nor a forced-text
column, and any sequence of observed values with at least one non-empty
observation, the sampled schema's final tag for that column is exactly the
fold of `reconcile` over the types inferred from the non-empty observations
(empty observations never contribute); that fold result is a genuine maximum
— it is one of the observed tags and no observed tag is strictly more
specific than it; and `reconcile` itself returns the observed tag exactly
when strictly more specific, else the current tag. -/
theorem c2_reconcile_monotone_max (forceText : List String) (lookupColumn c : String)
    (vs : List String) (hF : strMem (jsToLower c) forceText = false)
    (hL : jsToLower c ≠ lookupColumn) (hne : vs.filter (fun v => v ≠ "") ≠ []) :
    alistGet (analyzeRows forceText lookupColumn (vs.map (fun v => [(c, v)]))) (jsToLower c)
      = some (((vs.filter (fun v => v ≠ "")).map inferDataType).foldl reconcile "null")
    ∧ ((vs.filter (fun v => v ≠ "")).map inferDataType).foldl reconcile "null"
        ∈ (vs.filter (fun v => v ≠ "")).map inferDataType
    ∧ (∀ t ∈ (vs.filter (fun v => v ≠ "")).map inferDataType,
        isMoreSpecificDataType
          (((vs.filter (fun v => v ≠ "")).map inferDataType).foldl reconcile "null") t = false)
    ∧ (∀ currentType observed : String,
        (isMoreSpecificDataType currentType observed = true →
          reconcile currentType observed = observed)
        ∧ (isMoreSpecificDataType currentType observed = false →
          reconcile currentType observed = currentType)) := by
  refine ⟨?_, ?_, ?_, ?_⟩
  · have h1 := foldl_analyzeRow_single_col forceText lookupColumn c vs none hF hL
    have h2 := foldl_analyzeColumnStep_none vs hne
    rw [show (schemaOfCol (jsToLower c) none) = ([] : List (String × String)) from rfl] at h1
    unfold analyzeRows
    rw [h1, h2]
    simp [schemaOfCol, alistGet]
  · rcases foldl_reconcile_mem ((vs.filter (fun v => v ≠ "")).map inferDataType) "null"
      with h | h
    · exfalso
      obtain ⟨v, hvmem⟩ := List.exists_mem_of_ne_nil _ hne
      have hvne : v ≠ "" := by
        have := List.of_mem_filter hvmem
        simpa using this
      have hmem : inferDataType v ∈ (vs.filter (fun v => v ≠ "")).map inferDataType :=
        List.mem_map_of_mem _ hvmem
      have hge := foldl_reconcile_idx_ge _ _ "null" hmem
      rw [h] at hge
      have hpos := infer_more_specific_than_null hvne
      simp only [isMoreSpecificDataType, decide_eq_true_eq] at hpos
      omega
    · exact h
  · intro t ht
    have := foldl_reconcile_idx_ge ((vs.filter (fun v => v ≠ "")).map inferDataType) t "null" ht
    simp only [isMoreSpecificDataType, decide_eq_false_iff_not, not_lt]
    exact this
  · intro currentType observed
    constructor
    · intro h
      unfold reconcile
      rw [if_pos h]
    · intro h
      unfold reconcile
      rw [if_neg (by simp [h])]

/-- Witness for C2: an empty, an int and a text observation on column `A`
settle the column at `varchar(255)`. -/
theorem c2_reconcile_monotone_max_witness :
    alistGet (analyzeRows [] "" ((["", "5", "x"]).map (fun v => [("A", v)]))) (jsToLower "A")
      = some "varchar(255)" := by
  have h := (c2_reconcile_monotone_max [] "" "A" ["", "5", "x"] (by decide) (by decide)
    (by decide)).1
  rw [h]
  decide

theorem alistGet_alistSet_self {α : Type} (m : List (String × α)) (k : String) (v : α) :
    alistGet (alistSet m k v) k = some v := by
  induction m with
  | nil => simp [alistGet, alistSet]
  | cons kv rest ih =>
    by_cases h : kv.1 = k
    · simp [alistSet, alistGet, h]
    · simp [alistSet, alistGet, h, ih]

theorem alistGet_alistSet_ne {α : Type} (m : List (String × α)) (k k2 : String) (v : α)
    (h : k ≠ k2) : alistGet (alistSet m k v) k2 = alistGet m k2 := by
  induction m with
  | nil => simp [alistGet, alistSet, h]
  | cons kv rest ih =>
    by_cases h2 : kv.1 = k
    · have h3 : kv.1 ≠ k2 := by
        rw [h2]
        exact h
      simp [alistSet, alistGet, h2, h3, h]
    · simp [alistSet, alistGet, h2, ih]

theorem analyzeRowStep_sets_forced (ft : List String) (lc ck : String)
    (sch : List (String × String)) (kv : String × String)
    (hF : strMem ck ft = true) (hL : ck ≠ lc) (hk : jsToLower kv.1 = ck) :
    alistGet (analyzeRowStep ft lc sch kv) ck = some "varchar(255)" := by
  unfold analyzeRowStep
  rw [hk, if_neg hL, if_pos hF]
  exact alistGet_alistSet_self sch ck _

theorem analyzeRowStep_preserves_forced (ft : List String) (lc ck : String)
    (sch : List (String × String)) (kv : String × String)
    (hF : strMem ck ft = true) (hL : ck ≠ lc)
    (h : alistGet sch ck = some "varchar(255)") :
    alistGet (analyzeRowStep ft lc sch kv) ck = some "varchar(255)" := by
  by_cases hk : jsToLower kv.1 = ck
  · exact analyzeRowStep_sets_forced ft lc ck sch kv hF hL hk
  · unfold analyzeRowStep
    split
    · rw [alistGet_alistSet_ne _ _ _ _ hk]
      exact h
    · split
      · rw [alistGet_alistSet_ne _ _ _ _ hk]
        exact h
      · split
        · rw [alistGet_alistSet_ne _ _ _ _ hk]
          exact h
        · split
          · split
            · rw [alistGet_alistSet_ne _ _ _ _ hk]
              exact h
            · exact h
          · exact h

theorem foldl_analyzeRowStep_preserves_forced (ft : List String) (lc ck : String)
    (hF : strMem ck ft = true) (hL : ck ≠ lc) :
    ∀ (entries : List (String × String)) (sch : List (String × String)),
      alistGet sch ck = some "varchar(255)" →
      alistGet (entries.foldl (analyzeRowStep ft lc) sch) ck = some "varchar(255)" := by
  intro entries
  induction entries with
  | nil =>
    intro sch h
    exact h
  | cons kv rest ih =>
    intro sch h
    exact ih _ (analyzeRowStep_preserves_forced ft lc ck sch kv hF hL h)

theorem analyzeRow_sets_forced (ft : List String) (lc ck : String)
    (hF : strMem ck ft = true) (hL : ck ≠ lc) :
    ∀ (entries : List (String × String)) (sch : List (String × String)),
      entries.any (fun kv => jsToLower kv.1 = ck) = true →
      alistGet (entries.foldl (analyzeRowStep ft lc) sch) ck = some "varchar(255)" := by
  intro entries
  induction entries with
  | nil =>
    intro sch h
    simp at h
  | cons kv rest ih =>
    intro sch h
    by_cases hk : jsToLower kv.1 = ck
    · exact foldl_analyzeRowStep_preserves_forced ft lc ck hF hL rest _
        (analyzeRowStep_sets_forced ft lc ck sch kv hF hL hk)
    · have h2 : rest.any (fun kv => jsToLower kv.1 = ck) = true := by
        simp only [List.any_cons, Bool.or_eq_true] at h
        rcases h with h | h
        · exact absurd (by simpa using h) hk
        · exact h
      exact ih _ h2

theorem analyzeRows_preserves_forced (ft : List String) (lc ck : String)
    (hF : strMem ck ft = true) (hL : ck ≠ lc) :
    ∀ (rows : List Row) (sch : List (String × String)),
      alistGet sch ck = some "varchar(255)" →
      alistGet (rows.foldl (analyzeRow ft lc) sch) ck = some "varchar(255)" := by
  intro rows
  induction rows with
  | nil =>
    intro sch h
    exact h
  | cons r rest ih =>
    intro sch h
    exact ih _ (foldl_analyzeRowStep_preserves_forced ft lc ck hF hL r sch h)

/-- Options used by the C4 theorems: the forced-text list is the raw option
string `" Name "`, exercising the trim-and-lowercase normalization. -/
def forcedNameOpts : Options :=
  { addPrimaryKey := true, primaryKeyColumn := none, addForeignKeyToFile := none,
    addForeignKeyColumn := none, addBlankColumns := none, forceTextColumns := some " Name ",
    dropTable := true, lookup := "", sqlbatchsize := 1000 }

/-- Counterexample to C4 as stated: with `--forceTextColumns " Name "`, a row
whose `Name` field is `"1"` (which would infer `int`) pins the column to
`varchar(255)` — the long-text tag — not to the short-text tag
`varchar(100)` the claim names. -/
theorem c4_short_text_counterexample :
    alistGet (analyzeRows (parseForceTextColumns forcedNameOpts) forcedNameOpts.lookup
        [[("Name", "1")]]) "name" = some "varchar(255)"
    ∧ ¬ alistGet (analyzeRows (parseForceTextColumns forcedNameOpts) forcedNameOpts.lookup
        [[("Name", "1")]]) "name" = some "varchar(100)" :=
  ⟨by decide, by decide⟩

/-- C4 (amended): every column named in the forced-text override list (after
trim and case-normalization) that appears in some sampled row and is not the
lookup column has its tag fixed to the long-text type `varchar(255)` for the
lifetime of the run, exempt from type inference regardless of the values
observed. -/
theorem c4_forced_text_pinned_long_text (opts : Options) (col : String) (rows : List Row)
    (hF : strMem (jsToLower col) (parseForceTextColumns opts) = true)
    (hL : jsToLower col ≠ opts.lookup)
    (hmem : rows.any (fun r => r.any (fun kv => jsToLower kv.1 = jsToLower col)) = true) :
    alistGet (analyzeRows (parseForceTextColumns opts) opts.lookup rows) (jsToLower col)
      = some "varchar(255)" := by
  have main : ∀ (rs : List Row) (sch : List (String × String)),
      rs.any (fun r => r.any (fun kv => jsToLower kv.1 = jsToLower col)) = true →
      alistGet (rs.foldl (analyzeRow (parseForceTextColumns opts) opts.lookup) sch)
        (jsToLower col) = some "varchar(255)" := by
    intro rs
    induction rs with
    | nil =>
      intro sch h
      simp at h
    | cons r rest ih =>
      intro sch h
      by_cases hr : r.any (fun kv => jsToLower kv.1 = jsToLower col) = true
      · simp only [List.foldl_cons]
        exact analyzeRows_preserves_forced _ _ _ hF hL rest _
          (analyzeRow_sets_forced _ _ _ hF hL r sch hr)
      · have h2 : rest.any (fun r => r.any (fun kv => jsToLower kv.1 = jsToLower col))
            = true := by
          simp only [List.any_cons, Bool.or_eq_true] at h
          rcases h with h | h
          · exact absurd h hr
          · exact h
        simp only [List.foldl_cons]
        exact ih _ h2
  exact main rows [] hmem

/-- Witness for the amended C4: the forced column `NAME`, present in two rows
with values that would infer `int` and `date`, stays `varchar(255)`. -/
theorem c4_forced_text_pinned_long_text_witness :
    alistGet (analyzeRows (parseForceTextColumns forcedNameOpts) forcedNameOpts.lookup
        [[("Name", "1")], [("name", "2021-01-01")]]) (jsToLower "NAME")
      = some "varchar(255)" :=
  c4_forced_text_pinned_long_text forcedNameOpts "NAME" [[("Name", "1")], [("name", "2021-01-01")]]
    (by decide) (by decide) (by decide)

theorem escape_count (l : List Char) :
    ((l.map (fun c =>
        if c = singleQuoteChar then [singleQuoteChar, singleQuoteChar] else [c])).flatten).count
        singleQuoteChar
      = 2 * l.count singleQuoteChar := by
  induction l with
  | nil => rfl
  | cons c l ih =>
    by_cases hc : c = singleQuoteChar
    · subst hc
      simp only [List.map_cons, List.flatten_cons, List.count_append, ih, if_pos rfl,
        List.count_cons]
      simp
      omega
    · simp only [List.map_cons, List.flatten_cons, List.count_append, ih, if_neg hc,
        List.count_cons]
      simp [hc]

theorem escape_other_chars (l : List Char) :
    (((l.map (fun c =>
        if c = singleQuoteChar then [singleQuoteChar, singleQuoteChar] else [c])).flatten).filter
        (fun c => c ≠ singleQuoteChar))
      = l.filter (fun c => c ≠ singleQuoteChar) := by
  induction l with
  | nil => rfl
  | cons c l ih =>
    by_cases hc : c = singleQuoteChar
    · subst hc
      simp only [List.map_cons, List.flatten_cons, List.filter_append, ih, if_pos rfl,
        List.filter_cons]
      simp
    · simp only [List.map_cons, List.flatten_cons, List.filter_append, ih, if_neg hc,
        List.filter_cons]
      simp [hc]

theorem escape_length (l : List Char) :
    ((l.map (fun c =>
        if c = singleQuoteChar then [singleQuoteChar, singleQuoteChar] else [c])).flatten).length
      = l.length + l.count singleQuoteChar := by
  induction l with
  | nil => rfl
  | cons c l ih =>
    by_cases hc : c = singleQuoteChar
    · subst hc
      simp only [List.map_cons, List.flatten_cons, List.length_append, ih, if_pos rfl,
        List.count_cons, List.length_cons]
      simp
      omega
    · simp only [List.map_cons, List.flatten_cons, List.length_append, ih, if_neg hc,
        List.count_cons, List.length_cons]
      simp [hc]
      omega

/-- C8: value rendering in the row encoder. An empty value renders as the
unquoted literal `null`; a value whose column type is one of the quoted types
(`varchar(100)`, `varchar(255)`, `date`, `datetime`) renders wrapped in
single quotes around its escaped form; any other type renders the value bare.
The escape doubles every single quote — the escaped text carries exactly `2n`
quote characters for `n` in the original — and alters nothing else: the
non-quote characters are exactly those of the original, and the length grows
by exactly the number of quotes. -/
theorem c8_value_rendering (v dt : String) :
    (quoteIfNeeded (JSVal.str "") dt = "null")
    ∧ (v ≠ "" → strMem dt needQuotes = true →
        quoteIfNeeded (JSVal.str v) dt = "'" ++ escapeQuotesStr v ++ "'")
    ∧ (v ≠ "" → strMem dt needQuotes = false → quoteIfNeeded (JSVal.str v) dt = v)
    ∧ (escapeQuotesStr v).data.count singleQuoteChar = 2 * v.data.count singleQuoteChar
    ∧ (escapeQuotesStr v).data.filter (fun c => c ≠ singleQuoteChar)
        = v.data.filter (fun c => c ≠ singleQuoteChar)
    ∧ (escapeQuotesStr v).length = v.length + v.data.count singleQuoteChar := by
  refine ⟨rfl, ?_, ?_, ?_, ?_, ?_⟩
  · intro hv hdt
    have hf : jsFalsy (JSVal.str v) = false := by
      simp [jsFalsy, hv]
    unfold quoteIfNeeded
    rw [hf, if_neg (by decide), if_pos hdt]
    rfl
  · intro hv hdt
    have hf : jsFalsy (JSVal.str v) = false := by
      simp [jsFalsy, hv]
    unfold quoteIfNeeded
    rw [hf, if_neg (by decide), if_neg (by simp [hdt])]
    rfl
  · exact escape_count v.data
  · exact escape_other_chars v.data
  · show (escapeQuotesStr v).data.length = v.data.length + v.data.count singleQuoteChar
    exact escape_length v.data

/-- Witness for C8 at `"O'Brien"` and the quoted type `varchar(255)`. -/
theorem c8_value_rendering_witness :
    quoteIfNeeded (JSVal.str "O'Brien") "varchar(255)" = "'O''Brien'"
    ∧ (escapeQuotesStr "O'Brien").data.count singleQuoteChar
        = 2 * ("O'Brien" : String).data.count singleQuoteChar := by
  constructor
  · rw [(c8_value_rendering "O'Brien" "varchar(255)").2.1 (by decide) (by decide)]
    decide
  · exact (c8_value_rendering "O'Brien" "x").2.2.2.1

/-- Index of the last occurrence of a key in a list, when present. -/
def lastOcc : List String → String → Option Nat
  | [], _ => none
  | a :: rest, k =>
    match lastOcc rest k with
    | some i => some (i + 1)
    | none => if a = k then some 0 else none

/-- Number of positions whose key already occurred earlier (relative to the
keys already seen): one per duplicate encountered. -/
def dupCountAux : List String → List String → Nat
  | _, [] => 0
  | seen, a :: rest => (if strMem a seen then 1 else 0) + dupCountAux (a :: seen) rest

theorem computeForeignKeys_fold_spec :
    ∀ (ks : List String) (m : List (String × Nat)) (pk w : Nat) (seen : List String),
      (∀ k, (alistGet m k).isSome = strMem k seen) →
      ((ks.foldl computeForeignKeysStep (m, pk, w)).2.1 = pk + ks.length)
      ∧ (∀ k, alistGet (ks.foldl computeForeignKeysStep (m, pk, w)).1 k
          = match lastOcc ks k with
            | some i => some (pk + i + 1)
            | none => alistGet m k)
      ∧ (ks.foldl computeForeignKeysStep (m, pk, w)).2.2 = w + dupCountAux seen ks := by
  intro ks
  induction ks with
  | nil =>
    intro m pk w seen hinv
    refine ⟨rfl, ?_, rfl⟩
    intro k
    rfl
  | cons a rest ih =>
    intro m pk w seen hinv
    have hstep : computeForeignKeysStep (m, pk, w) a
        = (alistSet m a (pk + 1), pk + 1,
           if (alistGet m a).isSome then w + 1 else w) := rfl
    have hinv2 : ∀ k, (alistGet (alistSet m a (pk + 1)) k).isSome = strMem k (a :: seen) := by
      intro k
      by_cases hk : a = k
      · subst hk
        rw [alistGet_alistSet_self]
        simp [strMem]
      · rw [alistGet_alistSet_ne _ _ _ _ hk]
        simp only [strMem, if_neg hk]
        exact hinv k
    have ihr := ih (alistSet m a (pk + 1)) (pk + 1)
      (if (alistGet m a).isSome then w + 1 else w) (a :: seen) hinv2
    refine ⟨?_, ?_, ?_⟩
    · simp only [List.foldl_cons, hstep]
      rw [ihr.1]
      simp only [List.length_cons]
      omega
    · intro k
      simp only [List.foldl_cons, hstep]
      have h2 := ihr.2.1 k
      rw [h2]
      cases hlo : lastOcc rest k with
      | some i =>
        simp only [lastOcc, hlo]
        congr 1
        omega
      | none =>
        simp only [lastOcc, hlo]
        by_cases hk : a = k
        · subst hk
          rw [if_pos rfl, alistGet_alistSet_self]
        · rw [if_neg hk, alistGet_alistSet_ne _ _ _ _ hk]
    · simp only [List.foldl_cons, hstep]
      rw [ihr.2.2]
      simp only [dupCountAux]
      have hm := hinv a
      by_cases hs : strMem a seen = true
      · rw [hs] at hm
        simp only [hs, if_true, hm, if_pos]
        omega
      · have hs2 : strMem a seen = false := by
          cases h : strMem a seen
          · rfl
          · exact absurd h hs
        rw [hs2] at hm
        simp only [hs2, Bool.false_eq_true, if_false, hm]
        omega

/-- C6: the foreign-key pre-scan assigns each row of the second file the next
sequential integer starting at 1 regardless of duplicates (the final counter
is the row count); a key maps to its last occurrence's 1-based row index,
last-write-wins; and one non-fatal warning is recorded exactly per duplicate
encounter, that is, per row whose key was already present. A row missing the
join column reads as the JS string `"undefined"`. -/
theorem c6_foreign_key_prescan (joinColumn : String) (rows : List Row) :
    (computeForeignKeys joinColumn rows).2.1 = rows.length
    ∧ (∀ k, alistGet (computeForeignKeys joinColumn rows).1 k
        = (lastOcc (rows.map (fun row => (alistGet row joinColumn).getD "undefined")) k).map
            (fun i => i + 1))
    ∧ (computeForeignKeys joinColumn rows).2.2
        = dupCountAux [] (rows.map (fun row => (alistGet row joinColumn).getD "undefined")) := by
  have hfold : computeForeignKeys joinColumn rows
      = (rows.map (fun row => (alistGet row joinColumn).getD "undefined")).foldl
          computeForeignKeysStep ([], 0, 0) := by
    unfold computeForeignKeys
    rw [List.foldl_map]
  have hspec := computeForeignKeys_fold_spec
    (rows.map (fun row => (alistGet row joinColumn).getD "undefined")) [] 0 0 []
    (by intro k; rfl)
  refine ⟨?_, ?_, ?_⟩
  · rw [hfold, hspec.1]
    simp
  · intro k
    rw [hfold, hspec.2.1 k]
    cases hlo : lastOcc (rows.map (fun row => (alistGet row joinColumn).getD "undefined")) k with
    | some i =>
      show some (0 + i + 1) = some (i + 1)
      congr 1
      omega
    | none => rfl
  · rw [hfold, hspec.2.2]
    omega

/-- C7: when foreign-key resolution is requested (either option set) but the
required pair is incomplete, the program reports the configuration error and
exits with code 1 before any row of any file is processed. -/
theorem c7_fk_requires_both_args (opts : Options) (tableName : String)
    (fkRows mainRows : List Row)
    (h1 : (jsTruthy opts.addForeignKeyToFile || jsTruthy opts.addForeignKeyColumn) = true)
    (h2 : checkForeignKeyArgs opts = false) :
    (runProgram opts tableName fkRows mainRows).exitCode = some 1
    ∧ (runProgram opts tableName fkRows mainRows).rowsRead = 0 := by
  unfold runProgram
  simp [h1, h2]

/-- Options for the C7 witness: a foreign-key target file is given but the
join column is not. -/
def fkMissingColumnOpts : Options :=
  { addPrimaryKey := true, primaryKeyColumn := none,
    addForeignKeyToFile := some "other.csv", addForeignKeyColumn := none,
    addBlankColumns := none, forceTextColumns := none, dropTable := true, lookup := "",
    sqlbatchsize := 1000 }

/-- Witness for C7: the incomplete foreign-key configuration exits 1 with
zero rows read. -/
theorem c7_fk_requires_both_args_witness :
    (runProgram fkMissingColumnOpts "t" [[("k", "x")]] [[("a", "1")]]).exitCode = some 1
    ∧ (runProgram fkMissingColumnOpts "t" [[("k", "x")]] [[("a", "1")]]).rowsRead = 0 :=
  c7_fk_requires_both_args fkMissingColumnOpts "t" [[("k", "x")]] [[("a", "1")]]
    (by decide) (by decide)

/-- The default option values of the yargs declarations (sqlize.js lines
8-64): primary key on, drop-table on, no lookup, batch size 1000, everything
else absent. -/
def defaultRunOpts : Options :=
  { addPrimaryKey := true, primaryKeyColumn := none, addForeignKeyToFile := none,
    addForeignKeyColumn := none, addBlankColumns := none, forceTextColumns := none,
    dropTable := true, lookup := "", sqlbatchsize := 1000 }

/-- The two-row source of the claimed end-to-end scenario. -/
def c1Rows : List Row :=
  [[("a", "1"), ("b", "2021-01-01 10:00:00")], [("a", "200"), ("b", "")]]

/-- C1 (code bug): on the claimed two-row scenario the sampling analysis does
infer the schema a:int, b:datetime, but the run appends nothing at all to the
output — the analysis stream of `analyzeAndProcessCSVFile` has no end
handler, and the encoding pass starts only when a 5001st row arrives, so no
INSERT (and no CREATE) is ever emitted for this file. -/
theorem c1_small_file_produces_no_output :
    analyzeRows (parseForceTextColumns defaultRunOpts) defaultRunOpts.lookup c1Rows
      = [("a", "int"), ("b", "datetime")]
    ∧ runProgram defaultRunOpts "t" [] c1Rows
      = { exitCode := none, rowsRead := 2, chunks := [] } :=
  ⟨by decide, by decide⟩

/-- Options of the C9 run: lookup column `b`, primary key off, batch size
1000 (`--lookup b --addPrimaryKey false`). -/
def c9Opts : Options :=
  { addPrimaryKey := false, primaryKeyColumn := none, addForeignKeyToFile := none,
    addForeignKeyColumn := none, addBlankColumns := none, forceTextColumns := none,
    dropTable := true, lookup := "b", sqlbatchsize := 1000 }

/-- The two-row source of the C9 run. -/
def c9Rows : List Row := [[("b", "red")], [("b", "blue")]]

/-- Counterexample to C9 as stated: in the emitted output the lookup-value
INSERTs chunk comes right after the lookup DROP/CREATE and BEFORE the main
table's DROP, CREATE and batched INSERT chunks — the last chunk of the
output is the main INSERT batch, not the lookup INSERTs the claim places "at
the very end". -/
theorem c9_lookup_inserts_before_main_counterexample :
    encodeRunChunks c9Opts "t" [] c9Rows =
      ["\n\nDROP TABLE IF EXISTS t_b_lookup;\n",
       "CREATE TABLE IF NOT EXISTS t_b_lookup (\n    id INT AUTO_INCREMENT PRIMARY KEY,\nvalue VARCHAR(100)\n  );\n",
       "INSERT INTO t_b_lookup (id, value) VALUES (1, 'red');\nINSERT INTO t_b_lookup (id, value) VALUES (2, 'blue');",
       "\n\nDROP TABLE IF EXISTS t;\n",
       "CREATE TABLE IF NOT EXISTS t (\n  b int\n  );\n",
       "INSERT INTO t (b)\n VALUES (1),\n(2);"]
    ∧ (encodeRunChunks c9Opts "t" [] c9Rows).getLast?
        ≠ some "INSERT INTO t_b_lookup (id, value) VALUES (1, 'red');\nINSERT INTO t_b_lookup (id, value) VALUES (2, 'blue');" :=
  ⟨by decide, by decide⟩

/-- C9 (amended): when a lookup column is configured, the output text
contains, in this order: the lookup table's DROP/CREATE statements first,
then one INSERT statement per distinct lookup value (emitted at the end of
the encoding pass, before the main table's statements), and then the main
table's optional DROP, CREATE, and batched INSERT statements at the very
end. -/
theorem c9_emission_order (opts : Options) (tableName : String)
    (fkMap : List (String × Nat)) (rows : List Row) (h : opts.lookup ≠ "") :
    encodeRunChunks opts tableName fkMap rows
      = createLookupTable opts.dropTable tableName opts.lookup
        ++ [generateLookupTableInsertStatements (lookupTableNameOf tableName opts.lookup)
              (readCSVFileState opts fkMap
                (createColumnIndexToDataTypeMap (encodeRunSchema opts rows))
                rows).lookupTableValues,
            generateDropTableStatement opts.dropTable tableName,
            (generateCreateTableStatement opts tableName (encodeRunSchema opts rows)).1,
            insertRows opts tableName
              (generateCreateTableStatement opts tableName (encodeRunSchema opts rows)).2
              (readCSVFileState opts fkMap
                (createColumnIndexToDataTypeMap (encodeRunSchema opts rows)) rows).rowsBuf] := by
  have hb : (opts.lookup == "") = false := by
    simp [h]
  unfold encodeRunChunks readCSVFile readCSVFileEndChunks
  simp only [hb, Bool.not_false, if_true]
  rfl

/-- Witness for the amended C9 at the concrete lookup run. -/
theorem c9_emission_order_witness :
    encodeRunChunks c9Opts "t" [] c9Rows
      = createLookupTable c9Opts.dropTable "t" c9Opts.lookup
        ++ [generateLookupTableInsertStatements (lookupTableNameOf "t" c9Opts.lookup)
              (readCSVFileState c9Opts []
                (createColumnIndexToDataTypeMap (encodeRunSchema c9Opts c9Rows))
                c9Rows).lookupTableValues,
            generateDropTableStatement c9Opts.dropTable "t",
            (generateCreateTableStatement c9Opts "t" (encodeRunSchema c9Opts c9Rows)).1,
            insertRows c9Opts "t"
              (generateCreateTableStatement c9Opts "t" (encodeRunSchema c9Opts c9Rows)).2
              (readCSVFileState c9Opts []
                (createColumnIndexToDataTypeMap (encodeRunSchema c9Opts c9Rows))
                c9Rows).rowsBuf] :=
  c9_emission_order c9Opts "t" [] c9Rows (by decide)

/-- Distinct values of a list in first-seen order. -/
def firstSeen (l : List String) : List String :=
  match l with
  | [] => []
  | v :: vs => v :: firstSeen (vs.filter (fun x => x ≠ v))
termination_by l.length
decreasing_by
  simp only [List.length_cons]
  exact Nat.lt_succ_of_le (List.length_filter_le _ _)

/-- One occurrence of the lookup column through the substitution path of
`generateInsertStatement`: escape the value, return its id when present,
otherwise `addLookupValue` and return the fresh id. The third component
accumulates the substituted ids in row order. -/
def lookupFoldStep (acc : List (String × Nat) × Nat × List Nat) (v : String) :
    List (String × Nat) × Nat × List Nat :=
  let m := acc.1
  let ctr := acc.2.1
  let ids := acc.2.2
  let lookupValue := escapeQuotesStr v
  match alistGet m lookupValue with
  | some id => (m, ctr, ids ++ [id])
  | none => ((addLookupValue m ctr lookupValue).1, (addLookupValue m ctr lookupValue).2,
             ids ++ [ctr])

/-- The lookup assignment over a whole column of values, from the program's
initial state (empty map, counter 1). -/
def lookupFold (vs : List String) : List (String × Nat) × Nat × List Nat :=
  vs.foldl lookupFoldStep ([], 1, [])

/-- Options of a lookup run: `--lookup <lc> --addPrimaryKey false`. -/
def lookupRunOpts (lc : String) : Options :=
  { addPrimaryKey := false, primaryKeyColumn := none, addForeignKeyToFile := none,
    addForeignKeyColumn := none, addBlankColumns := none, forceTextColumns := none,
    dropTable := true, lookup := lc, sqlbatchsize := 1000 }

/-- The encoded tuples of a one-column lookup file (column type `int`, as the
analysis pass pins a lookup column). -/
def encodeTuples (lc : String) (vs : List String) : List String :=
  (readCSVFileState (lookupRunOpts lc) [] ["int"] (vs.map (fun v => [(lc, v)]))).rowsBuf

theorem alistSet_eq_append_of_none {α : Type} (m : List (String × α)) (k : String) (v : α)
    (h : alistGet m k = none) : alistSet m k v = m ++ [(k, v)] := by
  induction m with
  | nil => rfl
  | cons kv rest ih =>
    by_cases hk : kv.1 = k
    · rw [alistGet, if_pos hk] at h
      cases h
    · rw [alistGet, if_neg hk] at h
      rw [alistSet]
      rw [if_neg hk, ih h]
      rfl

theorem alistGet_mem {α : Type} (m : List (String × α)) (k : String) (x : α)
    (h : alistGet m k = some x) : (k, x) ∈ m := by
  induction m with
  | nil => cases h
  | cons kv rest ih =>
    by_cases hk : kv.1 = k
    · rw [alistGet, if_pos hk] at h
      cases kv with
      | mk a b =>
        have ha : a = k := hk
        have hb : b = x := by
          injection h
        subst ha
        subst hb
        exact List.mem_cons_self _ _
    · rw [alistGet, if_neg hk] at h
      exact List.mem_cons_of_mem _ (ih h)

theorem alistGet_none_iff_strMem {α : Type} (m : List (String × α)) (k : String) :
    alistGet m k = none ↔ strMem k (m.map Prod.fst) = false := by
  induction m with
  | nil => simp [alistGet, strMem]
  | cons kv rest ih =>
    by_cases hk : kv.1 = k
    · simp [alistGet, strMem, hk]
    · simp [alistGet, strMem, hk, ih]

theorem strMem_append (k : String) (l1 l2 : List String) :
    strMem k (l1 ++ l2) = (strMem k l1 || strMem k l2) := by
  induction l1 with
  | nil => simp [strMem]
  | cons a rest ih =>
    by_cases ha : a = k
    · simp [strMem, ha]
    · simp [strMem, ha, ih]

theorem range'_snoc (s n : Nat) : List.range' s (n + 1) = List.range' s n ++ [s + n] := by
  induction n generalizing s with
  | zero => simp [List.range']
  | succ n ih =>
    rw [List.range'_succ, ih (s + 1), List.range'_succ]
    simp only [List.cons_append]
    have h2 : s + 1 + n = s + (n + 1) := by omega
    rw [h2]

theorem filter_notMem_snoc (xs keys : List String) (lv : String) :
    (xs.filter (fun x => !strMem x keys)).filter (fun x => x ≠ lv)
      = xs.filter (fun x => !strMem x (keys ++ [lv])) := by
  rw [List.filter_filter]
  apply List.filter_congr
  intro x _
  rw [strMem_append]
  by_cases hx : x = lv
  · subst hx
    simp [strMem]
  · have hlvx : ¬ lv = x := fun h => hx h.symm
    have hsm : strMem x [lv] = false := by
      simp [strMem, hlvx]
    simp [hsm, hx]

theorem toDigitsCore_length_ge (b : Nat) : ∀ (fuel n : Nat) (ds : List Char),
    ds.length + 1 ≤ (Nat.toDigitsCore b (fuel + 1) n ds).length := by
  intro fuel
  induction fuel with
  | zero =>
    intro n ds
    unfold Nat.toDigitsCore
    dsimp only
    split
    · simp
    · unfold Nat.toDigitsCore
      simp
  | succ fuel ih =>
    intro n ds
    unfold Nat.toDigitsCore
    dsimp only
    split
    · simp
    · have := ih (n / b) (Nat.digitChar (n % b) :: ds)
      simp only [List.length_cons] at this
      omega

theorem lookupFold_go_spec : ∀ (vs : List String) (m : List (String × Nat)) (ctr : Nat)
    (ids : List Nat), ctr = m.length + 1 → m.map Prod.snd = List.range' 1 m.length →
    ((vs.foldl lookupFoldStep (m, ctr, ids)).1.map Prod.fst
        = m.map Prod.fst
          ++ firstSeen ((vs.map escapeQuotesStr).filter
               (fun x => !strMem x (m.map Prod.fst))))
    ∧ ((vs.foldl lookupFoldStep (m, ctr, ids)).1.map Prod.snd
        = List.range' 1 (vs.foldl lookupFoldStep (m, ctr, ids)).1.length)
    ∧ ((vs.foldl lookupFoldStep (m, ctr, ids)).2.1
        = (vs.foldl lookupFoldStep (m, ctr, ids)).1.length + 1)
    ∧ (∀ k, strMem k (m.map Prod.fst) = true →
        alistGet (vs.foldl lookupFoldStep (m, ctr, ids)).1 k = alistGet m k)
    ∧ ((vs.foldl lookupFoldStep (m, ctr, ids)).2.2
        = ids ++ vs.map (fun v =>
            (alistGet (vs.foldl lookupFoldStep (m, ctr, ids)).1 (escapeQuotesStr v)).getD 0)) := by
  intro vs
  induction vs with
  | nil =>
    intro m ctr ids h1 h2
    refine ⟨by simp [firstSeen], h2, ?_, fun k _ => rfl, by simp⟩
    simpa using h1
  | cons v vs ih =>
    intro m ctr ids h1 h2
    cases hget : alistGet m (escapeQuotesStr v) with
    | some id =>
      have hstep : lookupFoldStep (m, ctr, ids) v = (m, ctr, ids ++ [id]) := by
        simp [lookupFoldStep, hget]
      have hmem : strMem (escapeQuotesStr v) (m.map Prod.fst) = true := by
        cases hs : strMem (escapeQuotesStr v) (m.map Prod.fst)
        · rw [(alistGet_none_iff_strMem m _).mpr hs] at hget
          cases hget
        · rfl
      have ihr := ih m ctr (ids ++ [id]) h1 h2
      simp only [List.foldl_cons, hstep]
      refine ⟨?_, ihr.2.1, ihr.2.2.1, ihr.2.2.2.1, ?_⟩
      · simp only [List.map_cons, List.filter_cons, hmem, Bool.not_true, Bool.false_eq_true,
          if_false]
        exact ihr.1
      · rw [ihr.2.2.2.2]
        have hfv : (alistGet (vs.foldl lookupFoldStep (m, ctr, ids ++ [id])).1
            (escapeQuotesStr v)).getD 0 = id := by
          rw [ihr.2.2.2.1 _ hmem, hget]
          rfl
        simp only [List.map_cons, hfv, List.append_assoc, List.singleton_append]
    | none =>
      have hstep : lookupFoldStep (m, ctr, ids) v
          = (alistSet m (escapeQuotesStr v) ctr, ctr + 1, ids ++ [ctr]) := by
        simp [lookupFoldStep, hget, addLookupValue]
      have happend : alistSet m (escapeQuotesStr v) ctr = m ++ [(escapeQuotesStr v, ctr)] :=
        alistSet_eq_append_of_none m _ ctr hget
      have hnotmem : strMem (escapeQuotesStr v) (m.map Prod.fst) = false :=
        (alistGet_none_iff_strMem m _).mp hget
      have hm2fst : (alistSet m (escapeQuotesStr v) ctr).map Prod.fst
          = m.map Prod.fst ++ [escapeQuotesStr v] := by
        rw [happend]
        simp
      have hlen2 : (alistSet m (escapeQuotesStr v) ctr).length = m.length + 1 := by
        rw [happend]
        simp
      have hm2snd : (alistSet m (escapeQuotesStr v) ctr).map Prod.snd
          = List.range' 1 (alistSet m (escapeQuotesStr v) ctr).length := by
        rw [hlen2, range'_snoc, happend]
        simp only [List.map_append, List.map_cons, List.map_nil]
        rw [h2, show ctr = 1 + m.length from by omega]
      have ihr := ih (alistSet m (escapeQuotesStr v) ctr) (ctr + 1) (ids ++ [ctr])
        (by rw [hlen2]; omega) hm2snd
      simp only [List.foldl_cons, hstep]
      refine ⟨?_, ihr.2.1, ihr.2.2.1, ?_, ?_⟩
      · rw [ihr.1, hm2fst]
        simp only [List.map_cons, List.filter_cons, hnotmem, Bool.not_false, if_true]
        simp only [firstSeen]
        rw [filter_notMem_snoc]
        simp [List.append_assoc]
      · intro k hk
        have hkne : escapeQuotesStr v ≠ k := by
          intro he
          rw [he] at hnotmem
          rw [hk] at hnotmem
          cases hnotmem
        have hk2 : strMem k ((alistSet m (escapeQuotesStr v) ctr).map Prod.fst) = true := by
          rw [hm2fst, strMem_append, hk]
          rfl
        rw [ihr.2.2.2.1 k hk2, alistGet_alistSet_ne _ _ _ _ hkne]
      · rw [ihr.2.2.2.2]
        have hmem2 : strMem (escapeQuotesStr v)
            ((alistSet m (escapeQuotesStr v) ctr).map Prod.fst) = true := by
          rw [hm2fst, strMem_append]
          have : strMem (escapeQuotesStr v) [escapeQuotesStr v] = true := by
            simp [strMem]
          rw [this]
          simp
        have hfv : (alistGet
            (vs.foldl lookupFoldStep (alistSet m (escapeQuotesStr v) ctr, ctr + 1, ids ++ [ctr])).1
            (escapeQuotesStr v)).getD 0 = ctr := by
          rw [ihr.2.2.2.1 _ hmem2, alistGet_alistSet_self]
          rfl
        simp only [List.map_cons, hfv, List.append_assoc, List.singleton_append]

theorem toString_nat_ne_empty (n : Nat) : toString n ≠ "" := by
  show Nat.repr n ≠ ""
  intro h
  have hdata : (Nat.toDigits 10 n).asString.data = ("" : String).data := congrArg String.data h
  have hlen : (Nat.toDigits 10 n).length = 0 := by
    have : (Nat.toDigits 10 n) = [] := hdata
    rw [this]
    rfl
  have := toDigitsCore_length_ge 10 n n []
  unfold Nat.toDigits at hlen
  simp only [List.length_nil] at this
  omega

theorem lookupFold_ids_append : ∀ (vs : List String) (m : List (String × Nat)) (ctr : Nat)
    (ids : List Nat),
    vs.foldl lookupFoldStep (m, ctr, ids)
      = ((vs.foldl lookupFoldStep (m, ctr, [])).1,
         (vs.foldl lookupFoldStep (m, ctr, [])).2.1,
         ids ++ (vs.foldl lookupFoldStep (m, ctr, [])).2.2) := by
  intro vs
  induction vs with
  | nil =>
    intro m ctr ids
    simp
  | cons v vs ih =>
    intro m ctr ids
    cases hget : alistGet m (escapeQuotesStr v) with
    | some id =>
      have h1 : lookupFoldStep (m, ctr, ids) v = (m, ctr, ids ++ [id]) := by
        simp [lookupFoldStep, hget]
      have h2 : lookupFoldStep (m, ctr, ([] : List Nat)) v = (m, ctr, [id]) := by
        simp [lookupFoldStep, hget]
      simp only [List.foldl_cons, h1, h2]
      rw [ih m ctr (ids ++ [id]), ih m ctr [id]]
      simp
    | none =>
      have h1 : lookupFoldStep (m, ctr, ids) v
          = (alistSet m (escapeQuotesStr v) ctr, ctr + 1, ids ++ [ctr]) := by
        simp [lookupFoldStep, hget, addLookupValue]
      have h2 : lookupFoldStep (m, ctr, ([] : List Nat)) v
          = (alistSet m (escapeQuotesStr v) ctr, ctr + 1, [ctr]) := by
        simp [lookupFoldStep, hget, addLookupValue]
      simp only [List.foldl_cons, h1, h2]
      rw [ih _ (ctr + 1) (ids ++ [ctr]), ih _ (ctr + 1) [ctr]]
      simp

theorem generateInsert_lookup_single (lc v : String) (m : List (String × Nat)) (ctr pkc : Nat)
    (buf : List String) (hctr : 1 ≤ ctr) (hids : ∀ p ∈ m, 1 ≤ p.2) :
    generateInsertStatement (lookupRunOpts lc) [] ["int"] ⟨m, ctr, pkc, buf⟩ [(lc, v)]
      = { lookupTableValues := (lookupFoldStep (m, ctr, []) v).1,
          lookupPkCounter := (lookupFoldStep (m, ctr, []) v).2.1,
          primaryKeyCounter := pkc,
          rowsBuf := buf ++ (lookupFoldStep (m, ctr, []) v).2.2.map
            (fun id => "(" ++ toString id ++ ")") } := by
  cases hget : alistGet m (escapeQuotesStr v) with
  | some id =>
    have hid : 1 ≤ id := hids _ (alistGet_mem _ _ _ hget)
    have hid0 : (id == 0) = false := beq_eq_false_iff_ne.mpr (by omega)
    simp [generateInsertStatement, lookupFoldStep, hget, jsFalsy, quoteIfNeeded, strMem,
      jsvalToString, jsTruthy, lookupRunOpts, hid0, jsStr, foreignKeyFor,
      String.intercalate, needQuotes]
    have hgo : String.intercalate.go (toString id) ", " [] = toString id := rfl
    have hfil2 : List.filter (fun part => !decide (part = "")) [toString id, "", ""]
        = [toString id] := by
      have hne := toString_nat_ne_empty id
      simp [List.filter, hne]
    rw [hgo, hfil2]
    rfl
  | none =>
    have hid0 : (ctr == 0) = false := beq_eq_false_iff_ne.mpr (by omega)
    simp [generateInsertStatement, lookupFoldStep, hget, jsFalsy, quoteIfNeeded, strMem,
      jsvalToString, jsTruthy, lookupRunOpts, hid0, jsStr, foreignKeyFor,
      String.intercalate, needQuotes, addLookupValue]
    have hgo : String.intercalate.go (toString ctr) ", " [] = toString ctr := rfl
    have hfil2 : List.filter (fun part => !decide (part = "")) [toString ctr, "", ""]
        = [toString ctr] := by
      have hne := toString_nat_ne_empty ctr
      simp [List.filter, hne]
    rw [hgo, hfil2]
    rfl

theorem encodeTuples_spec (lc : String) : ∀ (vs : List String) (m : List (String × Nat))
    (ctr pkc : Nat) (buf : List String), 1 ≤ ctr → (∀ p ∈ m, 1 ≤ p.2) →
    ((vs.map (fun v => [(lc, v)])).foldl (generateInsertStatement (lookupRunOpts lc) [] ["int"])
        ⟨m, ctr, pkc, buf⟩).rowsBuf
      = buf ++ (vs.foldl lookupFoldStep (m, ctr, [])).2.2.map
          (fun id => "(" ++ toString id ++ ")") := by
  intro vs
  induction vs with
  | nil =>
    intro m ctr pkc buf hctr hids
    simp
  | cons v vs ih =>
    intro m ctr pkc buf hctr hids
    simp only [List.map_cons, List.foldl_cons]
    rw [generateInsert_lookup_single lc v m ctr pkc buf hctr hids]
    cases hget : alistGet m (escapeQuotesStr v) with
    | some id =>
      have hstep0 : lookupFoldStep (m, ctr, ([] : List Nat)) v = (m, ctr, [id]) := by
        simp [lookupFoldStep, hget]
      rw [hstep0]
      dsimp only
      rw [ih m ctr pkc _ hctr hids]
      rw [lookupFold_ids_append vs m ctr [id]]
      simp
    | none =>
      have hstep0 : lookupFoldStep (m, ctr, ([] : List Nat)) v
          = (alistSet m (escapeQuotesStr v) ctr, ctr + 1, [ctr]) := by
        simp [lookupFoldStep, hget, addLookupValue]
      rw [hstep0]
      dsimp only
      have hids2 : ∀ p ∈ alistSet m (escapeQuotesStr v) ctr, 1 ≤ p.2 := by
        rw [alistSet_eq_append_of_none m _ ctr hget]
        intro p hp
        rcases List.mem_append.mp hp with hp | hp
        · exact hids p hp
        · simp only [List.mem_singleton] at hp
          rw [hp]
          exact hctr
      rw [ih (alistSet m (escapeQuotesStr v) ctr) (ctr + 1) pkc _ (by omega) hids2]
      rw [lookupFold_ids_append vs _ (ctr + 1) [ctr]]
      simp

/-- C5: lookup id assignment is idempotent per distinct escaped value and
dense. Over any sequence of lookup-column values: the final map's keys are
the distinct escaped values in first-seen order; its ids are exactly
1..N in that order (no gaps or reuse); the counter rests at N+1; every
occurrence is substituted by the id the final map assigns its escaped value
(so repeats reuse the previously assigned id); and the encoded main-table
tuples are exactly those ids. In particular `["red", "blue", "red"]` yields
red=1, blue=2 and substituted tuples `(1)`, `(2)`, `(1)`. -/
theorem c5_lookup_idempotent_dense (lc : String) (vs : List String) :
    ((lookupFold vs).1.map Prod.fst = firstSeen (vs.map escapeQuotesStr))
    ∧ ((lookupFold vs).1.map Prod.snd = List.range' 1 (lookupFold vs).1.length)
    ∧ ((lookupFold vs).2.1 = (lookupFold vs).1.length + 1)
    ∧ ((lookupFold vs).2.2
        = vs.map (fun v => (alistGet (lookupFold vs).1 (escapeQuotesStr v)).getD 0))
    ∧ (encodeTuples lc vs
        = (lookupFold vs).2.2.map (fun id => "(" ++ toString id ++ ")"))
    ∧ lookupFold ["red", "blue", "red"] = ([("red", 1), ("blue", 2)], 3, [1, 2, 1])
    ∧ encodeTuples "category" ["red", "blue", "red"] = ["(1)", "(2)", "(1)"] := by
  have hspec := lookupFold_go_spec vs [] 1 [] rfl rfl
  refine ⟨?_, hspec.2.1, hspec.2.2.1, ?_, ?_, by decide, by decide⟩
  · have h := hspec.1
    simpa [lookupFold, strMem] using h
  · have h := hspec.2.2.2.2
    simpa [lookupFold] using h
  · have h := encodeTuples_spec lc vs [] 1 1 [] (by omega) (by intro p hp; cases hp)
    simpa [encodeTuples, readCSVFileState, lookupFold, initialEncodeState] using h

end Sqlize
